import Mathlib

/-!
# Oblique Palette 0.4.4 firmware: the Easel link

A shallow embedding of `Palette Firmware/obsolete/ObliquePalette0.4/src/main.cpp`.

Conventions of the embedding:
* a `byte` is a natural number reduced modulo 256, a `u_int16_t` one reduced modulo 65536;
  the reduction is applied wherever the source converts to that type (parameter passing,
  stores into a narrower array);
* `int` is 32 bits wide (the sketch drives pin 25 and a USB serial port); every `int`
  expression of the two conversion functions has promoted bytes or 16-bit values as operands,
  so it is non-negative and far below `2^31`, and is computed on `Nat` without reduction;
* a global array is the list of its entries, a function that fills a global array returns the
  array's new entries.
-/

namespace Palette

/-! ## Hardware configuration (the `#define`s) -/

/-- `#define DACBitDepth 12` -/
def DACBitDepth : Nat := 12

/-- `#define ADCBitDepth 12` -/
def ADCBitDepth : Nat := 12

/-- `#define numOutputChannels 8` -/
def numOutputChannels : Nat := 8

/-- `#define numInputChannels 8` -/
def numInputChannels : Nat := 8

/-- `#define numBytesFromEaselPerPacket ((DACBitDepth / 8) * (numOutputChannels))`;
the division is C integer division. -/
def numBytesFromEaselPerPacket : Nat := (DACBitDepth / 8) * (numOutputChannels)

/-- `#define numBytesToEaselPerPacket ((ADCBitDepth / 8) * (numInputChannels))`;
the division is C integer division. -/
def numBytesToEaselPerPacket : Nat := (ADCBitDepth / 8) * (numInputChannels)

/-- `#define numSamplesFromEaselPerPacket (numOutputChannels) * 1` -/
def numSamplesFromEaselPerPacket : Nat := (numOutputChannels) * 1

/-- `#define numSamplesToADCPerPacket (numInputChannels) * 1` -/
def numSamplesToADCPerPacket : Nat := (numInputChannels) * 1

/-- `#define firmwareVersion "v0.4.4"` -/
def firmwareVersion : String := "v0.4.4"

/-- `#define modelName "Palette"` -/
def modelName : String := "Palette"

/-! ## Machine integers -/

/-- Conversion to `byte`. -/
def toByte (n : Nat) : Nat := n % 256

/-- Conversion to `u_int16_t`. -/
def toU16 (n : Nat) : Nat := n % 65536

/-! ## The two conversion functions -/

/-- `void ThreeBytesTwoValues(byte byte1, byte byte2, byte byte3)`: the entries it leaves in
the global `int twoValues[2]`.

    twoValues[0] = (byte1 << 4) + (byte2 & 0b11110000);
    twoValues[1] = (byte2 & 0b00001111) + byte3;
-/
def ThreeBytesTwoValues (byte1 byte2 byte3 : Nat) : List Nat :=
  let byte1 := toByte byte1
  let byte2 := toByte byte2
  let byte3 := toByte byte3
  [(byte1 <<< 4) + (byte2 &&& 0b11110000),
   (byte2 &&& 0b00001111) + byte3]

/-- `void twoValuesThreeBytes(u_int16_t mashingValue1, u_int16_t mashingValue2)`: the entries
it leaves in the global `u_int16_t threeBytes[3]`. In C `+` binds tighter than `>>`, so the
middle entry is `((mashingValue1 & 0b1111) + mashingValue2) >> 8`.

    threeBytes[0] = mashingValue1 >> 4;
    threeBytes[1] = (mashingValue1 & 0b0000000000001111) + mashingValue2 >> 8;
    threeBytes[2] = mashingValue2 & 0b000011111111;
-/
def twoValuesThreeBytes (mashingValue1 mashingValue2 : Nat) : List Nat :=
  let mashingValue1 := toU16 mashingValue1
  let mashingValue2 := toU16 mashingValue2
  [toU16 (mashingValue1 >>> 4),
   toU16 (((mashingValue1 &&& 0b0000000000001111) + mashingValue2) >>> 8),
   toU16 (mashingValue2 &&& 0b000011111111)]

/-- The call `ThreeBytesTwoValues(t[0], t[1], t[2])` on an array `t` of three entries (the
conversion to `byte` happens at the parameters). -/
def decodeTrine (t : List Nat) : List Nat :=
  ThreeBytesTwoValues (t.getD 0 0) (t.getD 1 0) (t.getD 2 0)

/-- The call `twoValuesThreeBytes(v[0], v[1])` on an array `v` of two entries. -/
def encodePair (v : List Nat) : List Nat :=
  twoValuesThreeBytes (v.getD 0 0) (v.getD 1 0)

/-! ## The device and its surroundings -/

/-- The global arrays indexed by `loop()`. -/
inductive Buffer where
  | mashedSampleFromEasel
  | DACValues
  | ADCValues
  | mashedSampleToEasel
  deriving DecidableEq, Repr

/-- Declared number of entries of each global array. -/
def Buffer.size : Buffer → Nat
  | .mashedSampleFromEasel => numBytesFromEaselPerPacket
  | .DACValues => numOutputChannels
  | .ADCValues => numInputChannels
  | .mashedSampleToEasel => numBytesToEaselPerPacket

/-- One subscript expression evaluated by `loop()`: the array and the index. -/
structure Access where
  buffer : Buffer
  index : Nat
  deriving DecidableEq, Repr

/-- What the sketch cannot control. -/
structure World where
  /-- The reading returned by the `n`-th call of `micros()` since power-up. -/
  micros : Nat → Nat
  /-- The byte an rvalue `mashedSampleFromEasel[i]` yields for an index `i` past the end of
  the array (whatever object the linker placed there). -/
  beyond : Nat → Nat

/-- The globals of the sketch, the serial port and pin 25. -/
structure Device where
  /-- `byte mashedSampleFromEasel[numBytesFromEaselPerPacket]` -/
  mashedSampleFromEasel : List Nat
  /-- `int DACValues[numOutputChannels]` -/
  DACValues : List Int
  /-- `int ADCValues[numInputChannels]` -/
  ADCValues : List Int
  /-- `byte mashedSampleToEasel[numBytesToEaselPerPacket]` -/
  mashedSampleToEasel : List Nat
  /-- `int lastTime` -/
  lastTime : Int
  /-- `int twoValues[2]` -/
  twoValues : List Nat
  /-- `u_int16_t threeBytes[3]` -/
  threeBytes : List Nat
  /-- Bytes sent by the Easel and not yet read. -/
  rx : List Nat
  /-- Every byte sent to the Easel so far, oldest first. -/
  tx : List Nat
  /-- The levels written to pin 25, oldest first (`true` is `HIGH`). -/
  pin25 : List Bool
  /-- Milliseconds spent in `delay`. -/
  delayed : Nat
  /-- Number of calls of `micros()` so far. -/
  clock : Nat
  /-- The subscripts evaluated by `loop()` so far, oldest first. -/
  accesses : List Access
  deriving DecidableEq, Repr

/-- Conversion of an integer to `unsigned long` (32 bits). -/
def toU32 (z : Int) : Int := z % 4294967296

/-- Conversion of an integer to `int` (32 bits, two's complement). -/
def toInt32 (z : Int) : Int :=
  if toU32 z < 2147483648 then toU32 z else toU32 z - 4294967296

/-- Modelled from the spec: `round` comes from the platform headers, which are not part of
the sources; it is taken as the identity on integers, so that its result keeps the type
`unsigned long` of its argument. -/
def round (x : Int) : Int := x

/-- `micros()`: the next reading of the microsecond counter, an `unsigned long`. -/
def micros (w : World) (s : Device) : Int × Device :=
  (toU32 (w.micros s.clock), { s with clock := s.clock + 1 })

/-- `Serial.available()`. -/
def available (s : Device) : Nat := s.rx.length

/-- `Serial.readBytes(mashedSampleFromEasel, length)`: the first `length` waiting bytes are
moved to the front of the array; when fewer are waiting the call times out and the rest of
the array keeps its entries. -/
def readBytes (length : Nat) (s : Device) : Device :=
  let got := (s.rx.take length).map toByte
  { s with
    mashedSampleFromEasel := got ++ s.mashedSampleFromEasel.drop got.length
    rx := s.rx.drop length }

/-- `Serial.write(b)` of one byte. -/
def write (b : Nat) (s : Device) : Device :=
  { s with tx := s.tx ++ [toByte b] }

/-- `Serial.print(text)`. -/
def print (text : String) (s : Device) : Device :=
  { s with tx := s.tx ++ text.toList.map Char.toNat }

/-- `Serial.println(text)`: the text, then carriage return and line feed. -/
def println (text : String) (s : Device) : Device :=
  print "\r\n" (print text s)

/-- `digitalWrite(25, level)`. -/
def digitalWrite25 (level : Bool) (s : Device) : Device :=
  { s with pin25 := s.pin25 ++ [level] }

/-- `delay(ms)`. -/
def delay (ms : Nat) (s : Device) : Device :=
  { s with delayed := s.delayed + ms }

/-- Records that `loop()` evaluated the subscript `b[i]`. -/
def logAccess (b : Buffer) (i : Nat) (s : Device) : Device :=
  { s with accesses := s.accesses ++ [⟨b, i⟩] }

/-- The rvalue `mashedSampleFromEasel[i]`. -/
def fromEaselAt (w : World) (s : Device) (i : Nat) : Nat :=
  s.mashedSampleFromEasel.getD i (toByte (w.beyond i))

/-- Runs `body` for the counter values `i`, `i + step`, ... while the counter is below
`bound`, at most `fuel` times. -/
def forLoopFrom {σ : Type} (bound step : Nat) (body : Nat → σ → σ) : Nat → Nat → σ → σ
  | 0, _, s => s
  | fuel + 1, i, s =>
    if i < bound then forLoopFrom bound step body fuel (i + step) (body i s) else s

/-- `for (c = 0; c < bound; c += step) body`. With a positive step the counter reaches
`bound` after at most `bound` rounds, which is the fuel given. Every loop of the sketch has
`bound ≤ 8` and `step ≤ 3`, so neither a `byte` nor an `int` counter wraps. -/
def forLoop {σ : Type} (bound step : Nat) (body : Nat → σ → σ) (s : σ) : σ :=
  forLoopFrom bound step body bound 0 s

/-! ## The sketch -/

/-- The globals as the startup code leaves them: the arrays are zero-initialised, nothing has
been sent, the Easel's bytes `rx` are waiting, and `int lastTime = micros();` has run. -/
def powerUp (w : World) (rx : List Nat) : Device :=
  let s : Device :=
    { mashedSampleFromEasel := List.replicate numBytesFromEaselPerPacket 0
      DACValues := List.replicate numOutputChannels 0
      ADCValues := List.replicate numInputChannels 0
      mashedSampleToEasel := List.replicate numBytesToEaselPerPacket 0
      lastTime := 0
      twoValues := List.replicate 2 0
      threeBytes := List.replicate 3 0
      rx := rx
      tx := []
      pin25 := []
      delayed := 0
      clock := 0
      accesses := [] }
  { (micros w s).2 with lastTime := toInt32 (micros w s).1 }

/-- `byte lookForEasel()`: the value returned (the branch that announces ends without a
`return`) and the device afterwards. -/
def lookForEasel (s : Device) : Option Nat × Device :=
  if available s = 0 then
    let s := print modelName s
    let s := print " " s
    let s := print firmwareVersion s
    let s := print " " s
    let s := print (toString numOutputChannels) s
    let s := print " " s
    let s := print (toString DACBitDepth) s
    let s := print " " s
    let s := print (toString numInputChannels) s
    let s := print " " s
    let s := println (toString ADCBitDepth) s
    let s := digitalWrite25 false s
    let s := delay 50 s
    let s := digitalWrite25 true s
    let s := delay 50 s
    (none, s)
  else
    (some 1, s)

/-- `void setup()`; `Serial.begin` has no effect on a USB port. -/
def setup (w : World) (s : Device) : Device :=
  let now := (micros w s).1
  let s := (micros w s).2
  let s := { s with lastTime := toInt32 now }
  (lookForEasel s).2

/-- Body of `for (byte whichByte = 0; whichByte < numSamplesFromEaselPerPacket; whichByte += 3)`:
one call of `ThreeBytesTwoValues`, then the loop over `byte whichValue` (which hides the outer
`int whichValue`) that stores `twoValues[whichValue]` in `DACValues[whichValue + whichByte]`. -/
def parseTrine (w : World) (whichByte : Nat) (s : Device) : Device :=
  let s := logAccess .mashedSampleFromEasel whichByte s
  let s := logAccess .mashedSampleFromEasel (whichByte + 1) s
  let s := logAccess .mashedSampleFromEasel (whichByte + 2) s
  let s := { s with
    twoValues := ThreeBytesTwoValues (fromEaselAt w s whichByte)
      (fromEaselAt w s (whichByte + 1)) (fromEaselAt w s (whichByte + 2)) }
  forLoop 2 1 (fun whichValue s =>
    logAccess .DACValues (whichValue + whichByte)
      { s with
        DACValues := s.DACValues.set (whichValue + whichByte)
          ((s.twoValues.getD whichValue 0 : Nat) : Int) }) s

/-- Body of `for (byte whichADCValue = 0; whichADCValue < numInputChannels; whichADCValue++)`:
the test signal. `micros()` is read twice by the condition (left operand first) and once more
by the assignment; the arithmetic is that of `unsigned long`, the store converts to `int`. -/
def testSignal (w : World) (whichADCValue : Nat) (s : Device) : Device :=
  let now1 := (micros w s).1
  let s := (micros w s).2
  let now2 := (micros w s).1
  let s := (micros w s).2
  let s := logAccess .ADCValues whichADCValue s
  if toU32 (now1 - round (toU32 (toU32 (now2 - s.lastTime) * 100))) < 4096 then
    let now3 := (micros w s).1
    let s := (micros w s).2
    { s with
      ADCValues := s.ADCValues.set whichADCValue
        (toInt32 (round (toU32 (toU32 (now3 - s.lastTime) * 100)))) }
  else
    { s with ADCValues := s.ADCValues.set whichADCValue 4095 }

/-- Body of `for (byte thisADCValue = 0; thisADCValue < numInputChannels; thisADCValue += 2)`:
`twoValuesThreeBytes` is called on the counter and its successor, then the loop over
`thisMashedByte` (step 3, bound 3) stores into `mashedSampleToEasel`. -/
def mashPair (thisADCByte thisADCValue : Nat) (s : Device) : Device :=
  let s := { s with threeBytes := twoValuesThreeBytes thisADCValue (thisADCValue + 1) }
  forLoop 3 3 (fun thisMashedByte s =>
    logAccess .mashedSampleToEasel (thisMashedByte + thisADCByte)
      { s with
        mashedSampleToEasel := s.mashedSampleToEasel.set (thisMashedByte + thisADCByte)
          (toByte (s.threeBytes.getD thisMashedByte 0)) }) s

/-- Body of `for (byte thisOutputByte = 0; thisOutputByte < numBytesToEaselPerPacket;
thisOutputByte++)`: `Serial.write(mashedSampleToEasel[thisOutputByte])`. -/
def sendByte (thisOutputByte : Nat) (s : Device) : Device :=
  write (s.mashedSampleToEasel.getD thisOutputByte 0)
    (logAccess .mashedSampleToEasel thisOutputByte s)

/-- Body of `for (byte thisADCByte = 0; thisADCByte < numBytesFromEaselPerPacket;
thisADCByte += 3)`: the loop over `thisADCValue`, then the loop that sends the array. -/
def mashAndSend (thisADCByte : Nat) (s : Device) : Device :=
  let s := forLoop numInputChannels 2 (mashPair thisADCByte) s
  forLoop numBytesToEaselPerPacket 1 sendByte s

/-- Body of `for (int whichValue = 0; whichValue < numSamplesFromEaselPerPacket;
whichValue += 2)`: parse, test signal, mash and send, `lastTime = micros()`. -/
def exchange (w : World) (_whichValue : Nat) (s : Device) : Device :=
  let s := forLoop numSamplesFromEaselPerPacket 3 (parseTrine w) s
  let s := forLoop numInputChannels 1 (testSignal w) s
  let s := forLoop numBytesFromEaselPerPacket 3 mashAndSend s
  let now := (micros w s).1
  let s := (micros w s).2
  { s with lastTime := toInt32 now }

/-- `void loop()`: one pass. -/
def loop (w : World) (s : Device) : Device :=
  let s := readBytes numBytesFromEaselPerPacket s
  forLoop numSamplesFromEaselPerPacket 2 (exchange w) s

/-- A world for the examples: the clock advances 1000 microseconds between readings and
zero bytes follow `mashedSampleFromEasel` in memory. -/
def quietWorld : World :=
  { micros := fun n => 1000 * n
    beyond := fun _ => 0 }

/-- An inbound packet of the 12 bytes the header comment announces, for the examples. -/
def samplePacket : List Nat :=
  [0x12, 0x34, 0x56, 0x78, 0x9A, 0xBC, 0xDE, 0xF0, 0x11, 0x22, 0x33, 0x44]

/-- A world whose clock shows the single reading `now` at every call of `micros()` and in
which zero bytes follow `mashedSampleFromEasel` in memory. -/
def steadyWorld (now : Nat) : World :=
  { micros := fun _ => now
    beyond := fun _ => 0 }

/-- The device at power-up with `lastTime` holding the given reading, for the examples of
the test signal. -/
def since (lastTime : Int) : Device :=
  { powerUp quietWorld [] with lastTime := lastTime }

/-- The bytes of a text as `Serial.print` sends them. -/
def bytesOf (text : String) : List Nat := text.toList.map Char.toNat

/-- The bytes `batch` sent by the Easel reach the serial port. -/
def arrive (batch : List Nat) (s : Device) : Device :=
  { s with rx := s.rx ++ batch }

/-- A run of the sketch: power-up with `rx` waiting, `setup()`, then one pass of `loop()` for
every entry of `arrivals`, the bytes of that entry having arrived before the pass starts. -/
def run (w : World) (rx : List Nat) (arrivals : List (List Nat)) : Device :=
  arrivals.foldl (fun s batch => loop w (arrive batch s)) (setup w (powerUp w rx))

/-- The bytes one round of the sending loop writes when the array holds `m`. -/
def burst (m : List Nat) : List Nat :=
  (List.range numBytesToEaselPerPacket).map (fun i => toByte (m.getD i 0))

/-- The array `mashedSampleToEasel` after one round of the `whichValue` loop that found it
holding `m`: the entries 0, 3 and 6 have been overwritten with 0. -/
def afterExchange (m : List Nat) : List Nat :=
  ((m.set 0 0).set 3 0).set 6 0

/-- The bytes one round of the `whichValue` loop writes when it finds the array holding `m`:
the array is sent after each of the three overwrites. -/
def exchangeOutput (m : List Nat) : List Nat :=
  burst (m.set 0 0) ++ burst ((m.set 0 0).set 3 0) ++ burst (((m.set 0 0).set 3 0).set 6 0)

/-- The bytes one pass of `loop()` writes when it finds the array holding `m`. -/
def passOutput (m : List Nat) : List Nat :=
  exchangeOutput m ++ exchangeOutput (afterExchange m) ++
    exchangeOutput (afterExchange (afterExchange m)) ++
    exchangeOutput (afterExchange (afterExchange (afterExchange m)))

/-! # Properties -/

/-! ## The conversion functions -/

/-- C1: the round trip value -> bytes -> value does not return the samples. For the in-range
pair (0x123, 0x456) `twoValuesThreeBytes` leaves the bytes 0x12, 0x04, 0x56 and
`ThreeBytesTwoValues` turns them into (0x120, 0x5A), not (0x123, 0x456). -/
theorem round_trip_values_at_0x123_0x456 :
    twoValuesThreeBytes 0x123 0x456 = [0x12, 0x04, 0x56] ∧
      ThreeBytesTwoValues 0x12 0x04 0x56 = [0x120, 0x5A] ∧
      decodeTrine (twoValuesThreeBytes 0x123 0x456) ≠ [0x123, 0x456] := by
  decide

/-- C2: `twoValuesThreeBytes` is not injective on in-range samples: the pairs (0x123, 0x456)
and (0x120, 0x456), both within [0, 4095], produce the same three bytes. -/
theorem twoValuesThreeBytes_collision :
    twoValuesThreeBytes 0x123 0x456 = twoValuesThreeBytes 0x120 0x456 ∧
      (0x123 : Nat) ≠ 0x120 ∧ 0x123 < 4096 ∧ 0x120 < 4096 ∧ 0x456 < 4096 := by
  decide

/-- C3: the middle byte is not `((a & 0xF) << 4) | (b >> 8)`. For a = 0x123, b = 0x456 the
code stores `((a & 0xF) + b) >> 8 = 0x04` in `threeBytes[1]`, the formula gives 0x34. -/
theorem middle_byte_at_0x123_0x456 :
    (twoValuesThreeBytes 0x123 0x456).getD 1 0 = 0x04 ∧
      (((0x123 &&& 0xF) <<< 4) ||| (0x456 >>> 8)) = 0x34 ∧
      (twoValuesThreeBytes 0x123 0x456).getD 1 0 = ((0x123 &&& 0xF) + 0x456) >>> 8 := by
  decide

/-- C4: for samples a, b in [0, 4095], `threeBytes[0]` is `a >> 4`, the high 8 bits of a,
and `threeBytes[2]` is `b & 0xFF`, the low 8 bits of b. -/
theorem twoValuesThreeBytes_outer_bytes (a b : Nat) (ha : a < 4096) (hb : b < 4096) :
    (twoValuesThreeBytes a b).getD 0 0 = a >>> 4 ∧
      (twoValuesThreeBytes a b).getD 0 0 = a / 16 ∧
      (twoValuesThreeBytes a b).getD 2 0 = b &&& 0xFF ∧
      (twoValuesThreeBytes a b).getD 2 0 = b % 256 := by
  have h1 : a % 65536 = a := Nat.mod_eq_of_lt (by omega)
  have h2 : b % 65536 = b := Nat.mod_eq_of_lt (by omega)
  have h3 : a >>> 4 = a / 16 := by rw [Nat.shiftRight_eq_div_pow]
  have h4 : b &&& 255 = b % 256 := Nat.and_pow_two_sub_one_eq_mod b 8
  have h5 : a / 16 % 65536 = a / 16 := Nat.mod_eq_of_lt (by omega)
  have h6 : b % 256 % 65536 = b % 256 := Nat.mod_eq_of_lt (by omega)
  simp [twoValuesThreeBytes, toU16, h1, h2, h3, h4, h5, h6]

/-- The statement of C4 at the samples 0x123 and 0x456. -/
theorem twoValuesThreeBytes_outer_bytes_witness :
    (0x123 < 4096 ∧ 0x456 < 4096) ∧
      (twoValuesThreeBytes 0x123 0x456).getD 0 0 = 0x123 >>> 4 ∧
      (twoValuesThreeBytes 0x123 0x456).getD 0 0 = 0x123 / 16 ∧
      (twoValuesThreeBytes 0x123 0x456).getD 2 0 = 0x456 &&& 0xFF ∧
      (twoValuesThreeBytes 0x123 0x456).getD 2 0 = 0x456 % 256 :=
  ⟨by decide, twoValuesThreeBytes_outer_bytes 0x123 0x456 (by decide) (by decide)⟩

/-- C5: `ThreeBytesTwoValues` does not compute `(byte0 << 4) | (byte1 >> 4)` and
`((byte1 & 0xF) << 8) | byte2`. On the bytes 0x12, 0x34, 0x56 it leaves (0x150, 0x5A) in
`twoValues`, the formulas give (0x123, 0x456). -/
theorem ThreeBytesTwoValues_at_0x12_0x34_0x56 :
    ThreeBytesTwoValues 0x12 0x34 0x56 = [0x150, 0x5A] ∧
      ((0x12 <<< 4) ||| (0x34 >>> 4)) = 0x123 ∧
      (((0x34 &&& 0xF) <<< 8) ||| 0x56) = 0x456 := by
  decide

/-- C6: a decoded value can leave the 12-bit range: on the bytes 0xFF, 0xFF, 0xFF
`ThreeBytesTwoValues` leaves 4320 in `twoValues[0]`, above 4095 (and 270 in `twoValues[1]`). -/
theorem ThreeBytesTwoValues_exceeds_12_bits :
    ThreeBytesTwoValues 0xFF 0xFF 0xFF = [4320, 270] ∧
      4095 < (ThreeBytesTwoValues 0xFF 0xFF 0xFF).getD 0 0 := by
  decide

/-- C7: the round trip bytes -> value -> bytes fails on a packet produced by
`twoValuesThreeBytes`: y = (0x12, 0x04, 0x56) comes from the samples (0x123, 0x456), decodes
to (0x120, 0x5A), and these encode to (0x12, 0x00, 0x5A), not y. -/
theorem round_trip_bytes_at_0x123_0x456 :
    twoValuesThreeBytes 0x123 0x456 = [0x12, 0x04, 0x56] ∧
      decodeTrine [0x12, 0x04, 0x56] = [0x120, 0x5A] ∧
      encodePair [0x120, 0x5A] = [0x12, 0x00, 0x5A] ∧
      encodePair (decodeTrine (twoValuesThreeBytes 0x123 0x456)) ≠
        twoValuesThreeBytes 0x123 0x456 := by
  decide

/-! ## Packet lengths -/

/-- C8: `numBytesFromEaselPerPacket` is 8, not `ceil(DACBitDepth * numOutputChannels / 8)`,
which is the 12 of the header comment: `DACBitDepth / 8` is an integer division. The array
`mashedSampleFromEasel` has that many entries. -/
theorem numBytesFromEaselPerPacket_is_8 :
    numBytesFromEaselPerPacket = 8 ∧
      (DACBitDepth * numOutputChannels + 7) / 8 = 12 ∧
      Buffer.size .mashedSampleFromEasel = 8 := by
  decide

/-! ## Loops -/

/-- A loop whose body leaves a component of the state alone leaves it alone. -/
theorem forLoopFrom_keeps {σ α : Type} (f : σ → α) (bound step : Nat) (body : Nat → σ → σ)
    (h : ∀ i s, f (body i s) = f s) (fuel i : Nat) (s : σ) :
    f (forLoopFrom bound step body fuel i s) = f s := by
  induction fuel generalizing i s with
  | zero => rfl
  | succ fuel ih =>
    unfold forLoopFrom
    split
    · rw [ih, h]
    · rfl

/-- The component-preservation fact for `forLoop`. -/
theorem forLoop_keeps {σ α : Type} (f : σ → α) (bound step : Nat) (body : Nat → σ → σ)
    (h : ∀ i s, f (body i s) = f s) (s : σ) :
    f (forLoop bound step body s) = f s :=
  forLoopFrom_keeps f bound step body h bound 0 s

/-- More fuel than the distance to the bound changes nothing: with a positive step the loop
stops because its condition fails, not because the fuel is spent. -/
theorem forLoopFrom_fuel {σ : Type} (bound step : Nat) (body : Nat → σ → σ) (hstep : 0 < step)
    (fuel i : Nat) (s : σ) (hfuel : bound ≤ i + fuel) (extra : Nat) :
    forLoopFrom bound step body (fuel + extra) i s = forLoopFrom bound step body fuel i s := by
  induction fuel generalizing i s with
  | zero =>
    cases extra with
    | zero => rfl
    | succ e =>
      have hi : ¬ i < bound := by omega
      simp [forLoopFrom, hi]
  | succ fuel ih =>
    have e : fuel + 1 + extra = (fuel + extra) + 1 := by omega
    rw [e]
    unfold forLoopFrom
    split
    · exact ih (i + step) (body i s) (by omega)
    · rfl

/-! ## What one pass of `loop()` sends and consumes -/

theorem forLoop_tx (bound step : Nat) (body : Nat → Device → Device)
    (h : ∀ i s, (body i s).tx = s.tx) (s : Device) :
    (forLoop bound step body s).tx = s.tx :=
  forLoop_keeps Device.tx bound step body h s

theorem forLoop_rx (bound step : Nat) (body : Nat → Device → Device)
    (h : ∀ i s, (body i s).rx = s.rx) (s : Device) :
    (forLoop bound step body s).rx = s.rx :=
  forLoop_keeps Device.rx bound step body h s

theorem parseTrine_tx (w : World) (i : Nat) (s : Device) : (parseTrine w i s).tx = s.tx := by
  simp [parseTrine, forLoop, forLoopFrom, logAccess]

theorem parseTrine_rx (w : World) (i : Nat) (s : Device) : (parseTrine w i s).rx = s.rx := by
  simp [parseTrine, forLoop, forLoopFrom, logAccess]

theorem testSignal_tx (w : World) (i : Nat) (s : Device) : (testSignal w i s).tx = s.tx := by
  unfold testSignal
  simp only []
  split <;> simp [micros, logAccess]

theorem testSignal_rx (w : World) (i : Nat) (s : Device) : (testSignal w i s).rx = s.rx := by
  unfold testSignal
  simp only []
  split <;> simp [micros, logAccess]

theorem mashPair_tx (b i : Nat) (s : Device) : (mashPair b i s).tx = s.tx := by
  simp [mashPair, forLoop, forLoopFrom, logAccess]

theorem mashPair_rx (b i : Nat) (s : Device) : (mashPair b i s).rx = s.rx := by
  simp [mashPair, forLoop, forLoopFrom, logAccess]

theorem sendByte_tx_length (i : Nat) (s : Device) :
    (sendByte i s).tx.length = s.tx.length + 1 := by
  simp [sendByte, write, logAccess]

theorem sendByte_rx (i : Nat) (s : Device) : (sendByte i s).rx = s.rx := by
  simp [sendByte, write, logAccess]

theorem mashAndSend_tx_length (b : Nat) (s : Device) :
    (mashAndSend b s).tx.length = s.tx.length + 8 := by
  unfold mashAndSend
  simp only [forLoop, numBytesToEaselPerPacket, ADCBitDepth, numInputChannels, forLoopFrom]
  simp only [Nat.reduceDiv, Nat.reduceMul, Nat.reduceAdd, Nat.reduceLT, if_true, if_false,
    sendByte_tx_length]
  simp only [mashPair_tx]


theorem mashAndSend_rx (b : Nat) (s : Device) : (mashAndSend b s).rx = s.rx := by
  unfold mashAndSend
  rw [forLoop_rx _ _ _ sendByte_rx, forLoop_rx _ _ _ (mashPair_rx b)]

theorem exchange_tx_length (w : World) (v : Nat) (s : Device) :
    (exchange w v s).tx.length = s.tx.length + 24 := by
  unfold exchange
  simp only [micros]
  have h3 : ∀ d : Device, (forLoop numBytesFromEaselPerPacket 3 mashAndSend d).tx.length
      = d.tx.length + 24 := by
    intro d
    simp only [forLoop, numBytesFromEaselPerPacket, DACBitDepth, numOutputChannels, forLoopFrom,
      Nat.reduceDiv, Nat.reduceMul, Nat.reduceAdd, Nat.reduceLT, if_true, if_false,
      mashAndSend_tx_length]
  rw [h3, forLoop_tx _ _ _ (testSignal_tx w), forLoop_tx _ _ _ (parseTrine_tx w)]

theorem exchange_rx (w : World) (v : Nat) (s : Device) : (exchange w v s).rx = s.rx := by
  unfold exchange
  simp only [micros]
  rw [forLoop_rx _ _ _ mashAndSend_rx, forLoop_rx _ _ _ (testSignal_rx w),
    forLoop_rx _ _ _ (parseTrine_rx w)]

/-- C9: one pass of `loop()` takes 8 bytes from the Easel and sends 96 bytes back (twelve
times the 8-byte array `mashedSampleToEasel`), whatever the device state, the clock and the
packet; the outbound packet of `ceil(ADCBitDepth * numInputChannels / 8) = 12` bytes that the
claim expects per pass is not what is sent. -/
theorem loop_sends_96_bytes (w : World) (s : Device) :
    (loop w s).tx.length = s.tx.length + 96 ∧ (loop w s).rx = s.rx.drop 8 ∧
      (ADCBitDepth * numInputChannels + 7) / 8 = 12 := by
  refine ⟨?_, ?_, by decide⟩
  · unfold loop
    simp only [forLoop, numSamplesFromEaselPerPacket, numOutputChannels, forLoopFrom,
      Nat.reduceDiv, Nat.reduceMul, Nat.reduceAdd, Nat.reduceLT, if_true, if_false,
      exchange_tx_length]
    simp [readBytes]
  · unfold loop
    rw [forLoop_rx _ _ _ (exchange_rx w)]
    simp [readBytes, numBytesFromEaselPerPacket, DACBitDepth, numOutputChannels]

set_option maxRecDepth 100000 in
/-- C10: the decode pass does not fill the output channels in ascending order from
consecutive 3-byte groups. From power-up, on a packet starting 0x12 0x34 0x56 0x78 0x9A 0xBC
0xDE 0xF0, one pass of `loop()` leaves `DACValues[2]` and `DACValues[5]` untouched and puts
the values of the group 0x78 0x9A 0xBC, (2064, 198), in `DACValues[3]` and `DACValues[4]`;
the third group is completed by the byte past the end of the 8-byte array. -/
theorem loop_DACValues_sample :
    (loop quietWorld (powerUp quietWorld samplePacket)).DACValues =
        [336, 90, 0, 2064, 198, 0, 3792, 0] ∧
      ThreeBytesTwoValues 0x12 0x34 0x56 = [336, 90] ∧
      ThreeBytesTwoValues 0x78 0x9A 0xBC = [2064, 198] ∧
      ThreeBytesTwoValues 0xDE 0xF0 0x11 = [3792, 17] := by
  decide


/-! ## The bytes written by a pass -/

theorem forLoop_toEasel (bound step : Nat) (body : Nat → Device → Device)
    (h : ∀ i s, (body i s).mashedSampleToEasel = s.mashedSampleToEasel) (s : Device) :
    (forLoop bound step body s).mashedSampleToEasel = s.mashedSampleToEasel :=
  forLoop_keeps Device.mashedSampleToEasel bound step body h s

theorem parseTrine_toEasel (w : World) (i : Nat) (s : Device) :
    (parseTrine w i s).mashedSampleToEasel = s.mashedSampleToEasel := by
  simp [parseTrine, forLoop, forLoopFrom, logAccess]

theorem testSignal_toEasel (w : World) (i : Nat) (s : Device) :
    (testSignal w i s).mashedSampleToEasel = s.mashedSampleToEasel := by
  unfold testSignal
  simp only []
  split <;> simp [micros, logAccess]

theorem mashPair_toEasel (b i : Nat) (s : Device) :
    (mashPair b i s).mashedSampleToEasel =
      s.mashedSampleToEasel.set b (toByte ((twoValuesThreeBytes i (i + 1)).getD 0 0)) := by
  simp [mashPair, forLoop, forLoopFrom, logAccess]

/-- The four calls `twoValuesThreeBytes(thisADCValue, thisADCValue + 1)` of the sketch leave 0
in `threeBytes[0]`. -/
theorem counters_high_byte :
    toByte ((twoValuesThreeBytes 0 (0 + 1)).getD 0 0) = 0 ∧
      toByte ((twoValuesThreeBytes 2 (2 + 1)).getD 0 0) = 0 ∧
      toByte ((twoValuesThreeBytes 4 (4 + 1)).getD 0 0) = 0 ∧
      toByte ((twoValuesThreeBytes 6 (6 + 1)).getD 0 0) = 0 := by
  decide

theorem sendByte_tx (i : Nat) (s : Device) :
    (sendByte i s).tx = s.tx ++ [toByte (s.mashedSampleToEasel.getD i 0)] := by
  simp [sendByte, write, logAccess]

theorem sendByte_toEasel (i : Nat) (s : Device) :
    (sendByte i s).mashedSampleToEasel = s.mashedSampleToEasel := by
  simp [sendByte, write, logAccess]

theorem burst_eq (m : List Nat) :
    burst m = [toByte (m.getD 0 0), toByte (m.getD 1 0), toByte (m.getD 2 0),
      toByte (m.getD 3 0), toByte (m.getD 4 0), toByte (m.getD 5 0), toByte (m.getD 6 0),
      toByte (m.getD 7 0)] := rfl

theorem mashPairs_toEasel (b : Nat) (s : Device) :
    (forLoop numInputChannels 2 (mashPair b) s).mashedSampleToEasel =
      s.mashedSampleToEasel.set b 0 := by
  simp only [forLoop, numInputChannels, forLoopFrom, Nat.reduceAdd, Nat.reduceLT, if_true,
    if_false, mashPair_toEasel]
  simp only [counters_high_byte.1, counters_high_byte.2.1, counters_high_byte.2.2.1,
    counters_high_byte.2.2.2, List.set_set]

theorem mashPairs_tx (b : Nat) (s : Device) :
    (forLoop numInputChannels 2 (mashPair b) s).tx = s.tx :=
  forLoop_tx _ _ _ (mashPair_tx b) s

theorem mashAndSend_toEasel (b : Nat) (s : Device) :
    (mashAndSend b s).mashedSampleToEasel = s.mashedSampleToEasel.set b 0 := by
  unfold mashAndSend
  rw [forLoop_toEasel _ _ _ sendByte_toEasel, mashPairs_toEasel]

theorem sendAll_tx (s : Device) :
    (forLoop numBytesToEaselPerPacket 1 sendByte s).tx = s.tx ++ burst s.mashedSampleToEasel := by
  simp only [forLoop, numBytesToEaselPerPacket, ADCBitDepth, numInputChannels, forLoopFrom,
    Nat.reduceDiv, Nat.reduceMul, Nat.reduceAdd, Nat.reduceLT, if_true, if_false,
    sendByte_tx, sendByte_toEasel, burst_eq]
  simp

theorem mashAndSend_tx (b : Nat) (s : Device) :
    (mashAndSend b s).tx = s.tx ++ burst (s.mashedSampleToEasel.set b 0) := by
  unfold mashAndSend
  rw [sendAll_tx, mashPairs_toEasel, mashPairs_tx]

theorem mashAll_toEasel (s : Device) :
    (forLoop numBytesFromEaselPerPacket 3 mashAndSend s).mashedSampleToEasel =
      afterExchange s.mashedSampleToEasel := by
  simp only [forLoop, numBytesFromEaselPerPacket, DACBitDepth, numOutputChannels, forLoopFrom,
    Nat.reduceDiv, Nat.reduceMul, Nat.reduceAdd, Nat.reduceLT, if_true, if_false,
    mashAndSend_toEasel, afterExchange]

theorem mashAll_tx (s : Device) :
    (forLoop numBytesFromEaselPerPacket 3 mashAndSend s).tx =
      s.tx ++ exchangeOutput s.mashedSampleToEasel := by
  simp only [forLoop, numBytesFromEaselPerPacket, DACBitDepth, numOutputChannels, forLoopFrom,
    Nat.reduceDiv, Nat.reduceMul, Nat.reduceAdd, Nat.reduceLT, if_true, if_false,
    mashAndSend_toEasel, mashAndSend_tx, exchangeOutput, List.append_assoc]

theorem exchange_toEasel (w : World) (v : Nat) (s : Device) :
    (exchange w v s).mashedSampleToEasel = afterExchange s.mashedSampleToEasel := by
  unfold exchange
  simp only [micros]
  rw [mashAll_toEasel, forLoop_toEasel _ _ _ (testSignal_toEasel w),
    forLoop_toEasel _ _ _ (parseTrine_toEasel w)]

theorem exchange_tx (w : World) (v : Nat) (s : Device) :
    (exchange w v s).tx = s.tx ++ exchangeOutput s.mashedSampleToEasel := by
  unfold exchange
  simp only [micros]
  rw [mashAll_tx, forLoop_toEasel _ _ _ (testSignal_toEasel w),
    forLoop_toEasel _ _ _ (parseTrine_toEasel w), forLoop_tx _ _ _ (testSignal_tx w),
    forLoop_tx _ _ _ (parseTrine_tx w)]

theorem loop_toEasel (w : World) (s : Device) :
    (loop w s).mashedSampleToEasel =
      afterExchange (afterExchange (afterExchange (afterExchange s.mashedSampleToEasel))) := by
  unfold loop
  simp only [forLoop, numSamplesFromEaselPerPacket, numOutputChannels, forLoopFrom,
    Nat.reduceMul, Nat.reduceAdd, Nat.reduceLT, if_true, if_false, exchange_toEasel]
  rfl

theorem loop_tx (w : World) (s : Device) :
    (loop w s).tx = s.tx ++ passOutput s.mashedSampleToEasel := by
  unfold loop
  simp only [forLoop, numSamplesFromEaselPerPacket, numOutputChannels, forLoopFrom,
    Nat.reduceMul, Nat.reduceAdd, Nat.reduceLT, if_true, if_false, exchange_toEasel,
    exchange_tx, passOutput, List.append_assoc]
  rfl

theorem loop_rx (w : World) (s : Device) : (loop w s).rx = s.rx.drop 8 := by
  unfold loop
  rw [forLoop_rx _ _ _ (exchange_rx w)]
  simp [readBytes, numBytesFromEaselPerPacket, DACBitDepth, numOutputChannels]

/-- A zero-filled array stays zero-filled and only zero bytes are sent from it. -/
theorem zero_buffer_output :
    passOutput (List.replicate numBytesToEaselPerPacket 0) = List.replicate 96 0 ∧
      afterExchange (afterExchange (afterExchange (afterExchange
        (List.replicate numBytesToEaselPerPacket 0)))) =
        List.replicate numBytesToEaselPerPacket 0 := by
  decide

/-! ## Runs -/

theorem setup_toEasel (w : World) (rx : List Nat) :
    (setup w (powerUp w rx)).mashedSampleToEasel = List.replicate numBytesToEaselPerPacket 0 := by
  unfold setup lookForEasel
  simp only []
  split <;> rfl

theorem setup_tx (w : World) (rx : List Nat) :
    (setup w (powerUp w rx)).tx =
      if rx = [] then bytesOf "Palette v0.4.4 8 12 8 12\r\n" else [] := by
  unfold setup lookForEasel
  simp only []
  cases rx with
  | nil => rfl
  | cons b rest => rfl

theorem setup_rx (w : World) (rx : List Nat) : (setup w (powerUp w rx)).rx = rx := by
  unfold setup lookForEasel
  simp only []
  split <;> rfl

theorem run_snoc (w : World) (rx : List Nat) (arrivals : List (List Nat)) (batch : List Nat) :
    run w rx (arrivals ++ [batch]) = loop w (arrive batch (run w rx arrivals)) := by
  simp [run, List.foldl_append]

/-- Throughout a run the array `mashedSampleToEasel` stays zero-filled and every pass of
`loop()` adds 96 zero bytes to what `setup()` sent. -/
theorem run_output (w : World) (rx : List Nat) (arrivals : List (List Nat)) :
    (run w rx arrivals).mashedSampleToEasel = List.replicate numBytesToEaselPerPacket 0 ∧
      (run w rx arrivals).tx =
        (setup w (powerUp w rx)).tx ++ List.replicate (96 * arrivals.length) 0 := by
  induction arrivals using List.reverseRecOn with
  | nil => exact ⟨setup_toEasel w rx, by simp [run]⟩
  | append_singleton arrivals batch ih =>
    obtain ⟨hm, htx⟩ := ih
    have hm2 : (arrive batch (run w rx arrivals)).mashedSampleToEasel =
        List.replicate numBytesToEaselPerPacket 0 := hm
    have htx2 : (arrive batch (run w rx arrivals)).tx =
        (setup w (powerUp w rx)).tx ++ List.replicate (96 * arrivals.length) 0 := htx
    rw [run_snoc]
    refine ⟨?_, ?_⟩
    · rw [loop_toEasel, hm2, zero_buffer_output.2]
    · rw [loop_tx, hm2, htx2, zero_buffer_output.1, List.append_assoc, ← List.replicate_add,
        List.length_append, List.length_singleton, Nat.mul_add]

theorem run_silent_rx (w : World) (n : Nat) : (run w [] (List.replicate n [])).rx = [] := by
  induction n with
  | zero => exact setup_rx w []
  | succ n ih =>
    rw [List.replicate_succ', run_snoc, loop_rx]
    simp [arrive, ih]

/-! ## The exchange cycle, continued -/

set_option maxRecDepth 100000 in
/-- C11: the encode step does not pack the input samples. From power-up, one pass of `loop()`
on the sample packet leaves 4095 in every entry of `ADCValues`, yet `mashedSampleToEasel` is
all zero and all 96 bytes sent are zero, while `twoValuesThreeBytes(4095, 4095)` would give
the bytes 255, 16, 255: the function is called on the loop counter and its successor, and
only `threeBytes[0]` is stored, at the offsets 0, 3 and 6. -/
theorem loop_mashedSampleToEasel_sample :
    (loop quietWorld (powerUp quietWorld samplePacket)).ADCValues = List.replicate 8 4095 ∧
      (loop quietWorld (powerUp quietWorld samplePacket)).mashedSampleToEasel =
        List.replicate 8 0 ∧
      (loop quietWorld (powerUp quietWorld samplePacket)).tx = List.replicate 96 0 ∧
      twoValuesThreeBytes 4095 4095 = [255, 16, 255] := by
  decide

/-- C12: the test signal is not `(now - lastTime) * 100` clamped at 4096. With every clock
reading 10000 and `lastTime = 9990` the product is 1000, below 4096, and the code stores 4095,
because it tests `now - 1000 < 4096`; with every reading 500100 and `lastTime = 495100` the
product is 500000 and the code stores 500000, which is not a 12-bit sample. -/
theorem testSignal_at_fixed_clock :
    (testSignal (steadyWorld 10000) 0 (since 9990)).ADCValues.getD 0 0 = 4095 ∧
      ((10000 : Int) - (since 9990).lastTime) * 100 = 1000 ∧
      (testSignal (steadyWorld 500100) 0 (since 495100)).ADCValues.getD 0 0 = 500000 ∧
      ((500100 : Int) - (since 495100).lastTime) * 100 = 500000 := by
  decide

/-! ## Discovery -/

/-- C13, as stated, fails: with nothing waiting at power-up the text printed by
`lookForEasel` does not begin with "Palettev0.4.4 8 12 8 12"; its first 24 bytes are
"Palette v0.4.4 8 12 8 12", a space standing between model name and firmware version. -/
theorem announcement_has_space_after_model_name :
    available (powerUp quietWorld []) = 0 ∧
      (lookForEasel (powerUp quietWorld [])).2.tx.take 23 ≠ bytesOf "Palettev0.4.4 8 12 8 12" ∧
      (lookForEasel (powerUp quietWorld [])).2.tx.take 24 = bytesOf "Palette v0.4.4 8 12 8 12" := by
  decide

/-- C13, amended: when no input is available `lookForEasel` prints exactly
"Palette v0.4.4 8 12 8 12" followed by carriage return and line feed: all six fields, model
name and firmware version included, are separated by single spaces. -/
theorem lookForEasel_announcement (s : Device) (h : available s = 0) :
    (lookForEasel s).2.tx = s.tx ++ bytesOf "Palette v0.4.4 8 12 8 12\r\n" := by
  simp only [lookForEasel, h, if_true, print, println, digitalWrite25, delay,
    List.append_assoc, List.append_cancel_left_eq]
  decide

/-- The amended statement of C13 at power-up with nothing waiting. -/
theorem lookForEasel_announcement_witness :
    available (powerUp quietWorld []) = 0 ∧
      (lookForEasel (powerUp quietWorld [])).2.tx =
        (powerUp quietWorld []).tx ++ bytesOf "Palette v0.4.4 8 12 8 12\r\n" :=
  ⟨by decide, lookForEasel_announcement (powerUp quietWorld []) (by decide)⟩

/-- C14: `lookForEasel` prints a non-empty text exactly when `Serial.available()` is zero,
and prints nothing when input is available. -/
theorem lookForEasel_announces_iff (s : Device) :
    (∃ text, (lookForEasel s).2.tx = s.tx ++ text ∧ (text ≠ [] ↔ available s = 0)) ∧
      (available s ≠ 0 → (lookForEasel s).2.tx = s.tx) := by
  by_cases h : available s = 0
  · refine ⟨⟨bytesOf "Palette v0.4.4 8 12 8 12\r\n", ?_, ?_⟩, fun h2 => absurd h h2⟩
    · simp only [lookForEasel, h, if_true, print, println, digitalWrite25, delay,
        List.append_assoc, List.append_cancel_left_eq]
      decide
    · exact ⟨fun _ => h, fun _ => by decide⟩
  · refine ⟨⟨[], ?_, ?_⟩, fun _ => ?_⟩
    · simp [lookForEasel, h]
    · simp [h]
    · simp [lookForEasel, h]

/-- C15: the device does not stay in the announcing state while no input is seen. In a run
during which the Easel never sends a byte, `setup()` announces once and every pass of
`loop()` that follows runs the exchange and sends 96 bytes of packet data (all zero): after
`n` passes the output is the one announcement followed by `96 * n` zero bytes, and
`Serial.available()` is still zero. -/
theorem silent_run_exchanges (w : World) (n : Nat) :
    (run w [] (List.replicate n [])).tx =
        bytesOf "Palette v0.4.4 8 12 8 12\r\n" ++ List.replicate (96 * n) 0 ∧
      available (run w [] (List.replicate n [])) = 0 := by
  refine ⟨?_, ?_⟩
  · rw [(run_output w [] (List.replicate n [])).2, setup_tx, List.length_replicate]
    rfl
  · simp [available, run_silent_rx]

/-- C16: once `loop()` runs no announcement is sent again. In every run, whatever the Easel
sends and whenever, the output is what `setup()` printed followed by 96 zero bytes of
packet data per pass of `loop()`, and `setup()` printed the announcement once when nothing
was waiting and nothing otherwise; a pass from any state only appends entries of
`mashedSampleToEasel`. -/
theorem run_announces_only_in_setup (w : World) (rx : List Nat) (arrivals : List (List Nat)) :
    (run w rx arrivals).tx =
        (setup w (powerUp w rx)).tx ++ List.replicate (96 * arrivals.length) 0 ∧
      ((setup w (powerUp w rx)).tx =
        if rx = [] then bytesOf "Palette v0.4.4 8 12 8 12\r\n" else []) ∧
      ∀ s : Device, (loop w s).tx = s.tx ++ passOutput s.mashedSampleToEasel :=
  ⟨(run_output w rx arrivals).2, setup_tx w rx, loop_tx w⟩

set_option maxRecDepth 100000 in
/-- C17: a pass of `loop()` indexes past the end of an array. From power-up, on the sample
packet, the subscripts that are not below the declared size of their array are four
evaluations of `mashedSampleFromEasel[8]`, one in each round of the `whichValue` loop; the
array has 8 entries. -/
theorem loop_reads_past_mashedSampleFromEasel :
    (loop quietWorld (powerUp quietWorld samplePacket)).accesses.filter
        (fun a => decide (a.buffer.size ≤ a.index)) =
        List.replicate 4 ⟨Buffer.mashedSampleFromEasel, 8⟩ ∧
      Buffer.size .mashedSampleFromEasel = 8 := by
  decide

/-- C18: the bytes a pass of `loop()` sends depend only on the contents of
`mashedSampleToEasel` at its start: two passes from devices that agree on that array, under
any two worlds (clock readings, memory past the inbound array) and with any inbound bytes,
append the same byte sequence; from a zero-filled array the sequence is 96 zero bytes. -/
theorem loop_output_independent (w1 w2 : World) (s1 s2 : Device)
    (h : s1.mashedSampleToEasel = s2.mashedSampleToEasel) :
    (∃ out, (loop w1 s1).tx = s1.tx ++ out ∧ (loop w2 s2).tx = s2.tx ++ out) ∧
      (s1.mashedSampleToEasel = List.replicate numBytesToEaselPerPacket 0 →
        (loop w1 s1).tx = s1.tx ++ List.replicate 96 0) := by
  refine ⟨⟨passOutput s1.mashedSampleToEasel, loop_tx w1 s1, ?_⟩, fun hz => ?_⟩
  · rw [h]
    exact loop_tx w2 s2
  · rw [loop_tx, hz, zero_buffer_output.1]

/-- The statement of C18 for a pass from power-up on the sample packet under the quiet world
and a pass from power-up on three other bytes under a steady clock. -/
theorem loop_output_independent_witness :
    (powerUp quietWorld samplePacket).mashedSampleToEasel =
        (powerUp (steadyWorld 7) [1, 2, 3]).mashedSampleToEasel ∧
      (∃ out, (loop quietWorld (powerUp quietWorld samplePacket)).tx =
          (powerUp quietWorld samplePacket).tx ++ out ∧
        (loop (steadyWorld 7) (powerUp (steadyWorld 7) [1, 2, 3])).tx =
          (powerUp (steadyWorld 7) [1, 2, 3]).tx ++ out) ∧
      ((powerUp quietWorld samplePacket).mashedSampleToEasel =
          List.replicate numBytesToEaselPerPacket 0 →
        (loop quietWorld (powerUp quietWorld samplePacket)).tx =
          (powerUp quietWorld samplePacket).tx ++ List.replicate 96 0) :=
  ⟨rfl, loop_output_independent quietWorld (steadyWorld 7) (powerUp quietWorld samplePacket)
    (powerUp (steadyWorld 7) [1, 2, 3]) rfl⟩

/-- C19: for samples a, b in [0, 4095] every entry `twoValuesThreeBytes` leaves in
`threeBytes` is at most 255, so the conversion to `byte` keeps it. -/
theorem twoValuesThreeBytes_fits_bytes (a b : Nat) (ha : a < 4096) (hb : b < 4096) :
    (∀ x ∈ twoValuesThreeBytes a b, x ≤ 255) ∧
      (twoValuesThreeBytes a b).map toByte = twoValuesThreeBytes a b := by
  have h1 : a % 65536 = a := Nat.mod_eq_of_lt (by omega)
  have h2 : b % 65536 = b := Nat.mod_eq_of_lt (by omega)
  have hn : a &&& 15 ≤ 15 := Nat.and_le_right
  have hl : b &&& 255 ≤ 255 := Nat.and_le_right
  have e0 : a >>> 4 = a / 16 := by rw [Nat.shiftRight_eq_div_pow]
  have e1 : ((a &&& 15) + b) >>> 8 = ((a &&& 15) + b) / 256 := by
    rw [Nat.shiftRight_eq_div_pow]
  simp only [twoValuesThreeBytes, toU16, toByte, h1, h2, e0, e1, List.mem_cons,
    List.mem_singleton, List.not_mem_nil, or_false, List.map_cons, List.map_nil]
  generalize a &&& 15 = n at hn
  generalize b &&& 255 = l at hl
  refine ⟨?_, ?_⟩
  · rintro x (rfl | rfl | rfl) <;> omega
  · congr 1
    · omega
    · congr 1
      · omega
      · congr 1
        omega

/-- The statement of C19 at the samples 0x123 and 0x456. -/
theorem twoValuesThreeBytes_fits_bytes_witness :
    (0x123 < 4096 ∧ 0x456 < 4096) ∧
      (∀ x ∈ twoValuesThreeBytes 0x123 0x456, x ≤ 255) ∧
      (twoValuesThreeBytes 0x123 0x456).map toByte = twoValuesThreeBytes 0x123 0x456 :=
  ⟨by decide, twoValuesThreeBytes_fits_bytes 0x123 0x456 (by decide) (by decide)⟩

end Palette
